import Mathlib

/-!
Shallow embedding of `eval/perf.py`, the performance-evaluation harness:
a sweep over a (difficulty x worker-count) grid that deploys a mining
cluster, polls a chain-length counter under a deadline, records one
`RunResult` per grid point, always stops the cluster at the end, and
renders a grouped bar chart.

External effects (subprocess invocations, wall-clock time, JSON parsing,
stdout) are modelled explicitly: real time is a rational number threaded
through the polling loop, external command outcomes are supplied by an
environment record, and console/chart output is represented as the data
the source computes for it.
-/

namespace Perf

/-- Mirror of the frozen dataclass `RunResult` (perf.py lines 40-51).
Chain lengths are integers (`int(...)` in the source); the deploy latency
is a wall-clock duration modelled as a rational; timestamps are opaque
strings produced by the clock. -/
structure RunResult where
  count : ℕ
  difficulty : ℕ
  duration_sec : ℕ
  ips : List String
  start_chain_length : ℤ
  end_chain_length : ℤ
  blocks_mined : ℤ
  deploy_elapsed_sec : ℚ
  started_at : String
  ended_at : String
  deriving DecidableEq

/-- Mirror of `print_progress_line` (perf.py lines 185-192).  The source
keeps a mutable `last_print_len`, pads the message with trailing spaces up
to that length, records the padded length, and writes a carriage return
followed by the padded text.  Here the text is a list of characters and the
function returns (padded text, new last_print_len). -/
def print_progress_line (last_print_len : ℕ) (msg : List Char) : List Char × ℕ :=
  let padded := if last_print_len > msg.length
    then msg ++ List.replicate (last_print_len - msg.length) ' '
    else msg
  (padded, padded.length)

/-- One rendered bar of the grouped chart: its grid coordinates, height,
the annotation text drawn above it, and the y coordinate the annotation is
placed at (perf.py lines 301-321). -/
structure BarSpec where
  count : ℕ
  difficulty : ℕ
  height : ℤ
  label : String
  textY : ℚ
  deriving DecidableEq

/-- The `(difficulty, count) -> blocks_mined` lookup dict built at perf.py
lines 286-288.  Python dict insertion lets a later result overwrite an
earlier one with the same key, hence the search over the reversed list. -/
def lookupBlocks (results : List RunResult) (diff count : ℕ) : Option ℤ :=
  (results.reverse.find? fun r => r.difficulty == diff && r.count == count).map
    fun r => r.blocks_mined

/-- Bars produced by `plot_grouped_bars` (perf.py lines 301-321): for each
count (outer), for each difficulty (inner), height `lookup.get((d,c), 0)`,
annotation `str(y)`, annotation y coordinate `y if y > 0 else 0.8`. -/
def plot_grouped_bars (results : List RunResult) (counts difficulties : List ℕ) :
    List BarSpec :=
  counts.flatMap fun count =>
    difficulties.map fun diff =>
      let y : ℤ := (lookupBlocks results diff count).getD 0
      { count := count, difficulty := diff, height := y, label := toString y,
        textY := if 0 < y then (y : ℚ) else 4/5 }

/-- One entry of the polling loop's call log: which attempt, at what time
the `client_chain_length` call was issued, and the per-call timeout that
was computed for it (perf.py lines 115-116). -/
structure CallLog where
  attempt : ℕ
  callTime : ℚ
  callTimeout : ℚ
  deriving DecidableEq

/-- Result of the polling loop: a value with the time it was returned at, a
timeout with the time the loop condition failed at, or fuel exhaustion
(the fuel parameter is an artifact of totality, not of the source). -/
inductive PollOutcome where
  | value (v : ℤ) (endTime : ℚ)
  | timedOut (endTime : ℚ)
  | fuelOut
  deriving DecidableEq

/-- Per-call timeout computed at perf.py line 116:
`max(0.5, min(2.0, remaining))`. -/
def per_call_timeout (remaining : ℚ) : ℚ := max (1/2) (min 2 remaining)

/-- Python `int()` on a float/rational truncates toward zero. -/
def pyInt (q : ℚ) : ℤ := if 0 ≤ q then ⌊q⌋ else ⌈q⌉

/-- The timeout `run_cmd` actually passes to the subprocess call
(perf.py line 63): `max(1, int(timeout_sec))`. -/
def run_cmd_timeout (timeout_sec : ℚ) : ℤ := max 1 (pyInt timeout_sec)

/-- Loop of `wait_for_chain_length` (perf.py lines 112-121) with real time
made explicit: `oracle k` is the outcome of the k-th `client_chain_length`
call, `cost k` is the wall-clock time that call consumes, `pollInt` is
`poll_interval_sec` slept after each failed attempt.  Each iteration first
checks `t < deadline`, computes the per-call timeout from the remaining
time, logs the call, and either returns the value or sleeps and retries.
`fuel` bounds the number of iterations so the definition is total; the
source loop is unbounded. -/
def waitLoop (oracle : ℕ → Option ℤ) (cost : ℕ → ℚ) (deadline pollInt : ℚ) :
    ℕ → ℚ → ℕ → PollOutcome × List CallLog
  | 0, _, _ => (.fuelOut, [])
  | fuel + 1, t, k =>
    if t < deadline then
      let log : CallLog := ⟨k, t, per_call_timeout (deadline - t)⟩
      match oracle k with
      | some v => (.value v (t + cost k), [log])
      | none =>
        let rest := waitLoop oracle cost deadline pollInt fuel (t + cost k + pollInt) (k + 1)
        (rest.1, log :: rest.2)
    else (.timedOut t, [])

/-- `wait_for_chain_length` (perf.py lines 104-121): the deadline is
`time.time() + timeout_sec` where `t0` is the current time; polling starts
at attempt 0 at time `t0`. -/
def wait_for_chain_length (oracle : ℕ → Option ℤ) (cost : ℕ → ℚ)
    (t0 timeout_sec pollInt : ℚ) (fuel : ℕ) : PollOutcome × List CallLog :=
  waitLoop oracle cost (t0 + timeout_sec) pollInt fuel t0 0

/-- Minimal JSON value model: enough to distinguish a numeric field, a
non-numeric field, and anything else. -/
inductive JVal where
  | num (n : ℤ)
  | str (s : String)
  | other
  deriving DecidableEq

/-- Outcome of the external counter-read command (`run_cmd` at perf.py
lines 91-95): `failed` covers every raised transport error (non-zero exit
via check=True, timeout expiry, OS error); `output` carries stdout. -/
inductive CmdOutcome where
  | failed
  | output (stdout : String)
  deriving DecidableEq

/-- Error values raised by the harness: `ValueError(msg)`,
`TimeoutError`, a deploy subprocess failure (`CalledProcessError` from
check=True), and `FileNotFoundError(msg)`. -/
inductive PerfError where
  | valueError (msg : String)
  | timedOut
  | deployFailed
  | fileNotFound (msg : String)
  deriving DecidableEq

/-- `client_chain_length` (perf.py lines 83-101).  `binExists` models the
`bin/client` existence check before the try block (raises if absent);
`cmd` is the run_cmd outcome; `parse` models `json.loads` (`none` =
malformed, i.e. it raises); `toInt` models `int()` on the field value
(`none` = it raises).  JSON objects are association lists (json.loads
yields a dict, duplicate-free).  The `try/except Exception` at lines
90-101 turns every raised failure inside it into `None`; the explicit
`"chain_length" not in data` check also returns `None`. -/
def client_chain_length (binExists : Bool) (cmd : CmdOutcome)
    (parse : String → Option (List (String × JVal))) (toInt : JVal → Option ℤ) :
    Except PerfError (Option ℤ) :=
  if binExists then
    .ok (match cmd with
      | .failed => none
      | .output out =>
        match parse out with
        | none => none
        | some data =>
          match data.lookup "chain_length" with
          | none => none
          | some v => toInt v)
  else .error (.fileNotFound "Missing bin/client")

/-- Cluster-interaction events emitted by one grid point or by the sweep:
a `make deploy_miner` invocation, a counter-read phase (one
`wait_for_chain_length` call), and a `make stop_miner` invocation. -/
inductive Event where
  | deploy (count difficulty : ℕ)
  | counterRead (count difficulty : ℕ)
  | stopMiner
  deriving DecidableEq

/-- Environment supplying the outcomes of the external world for one grid
point (count, difficulty): whether the deploy command succeeds, the
outcomes of the two `wait_for_chain_length` phases (start/end reads), the
measured deploy latency, and the clock timestamps. -/
structure Env where
  deployOk : ℕ → ℕ → Bool
  startRead : ℕ → ℕ → Except PerfError ℤ
  endRead : ℕ → ℕ → Except PerfError ℤ
  deployElapsed : ℕ → ℕ → ℚ
  startStamp : ℕ → ℕ → String
  endStamp : ℕ → ℕ → String

/-- `pick_observer_ip` (perf.py lines 124-128): raises `ValueError` on an
empty list, else returns the first address. -/
def pick_observer_ip (ips : List String) : Except PerfError String :=
  match ips with
  | [] => .error (.valueError "No miner IPs provided")
  | ip :: _ => .ok ip

/-- `run_experiment` (perf.py lines 143-239) against environment `env`:
pool-size check, address slice `all_ips[:count]`, observer selection,
deploy, start read, end read, and construction of the `RunResult` with
`blocks_mined = end_len - start_len`.  The second component is the ordered
list of cluster-interaction events this grid point performed before
returning or raising. -/
def run_experiment (env : Env) (all_ips : List String) (count difficulty duration_sec : ℕ) :
    Except PerfError RunResult × List Event :=
  if count > all_ips.length then
    (.error (.valueError ("Requested COUNT=" ++ toString count ++ " but only " ++
      toString all_ips.length ++ " IPs are in minerip.txt")), [])
  else
    match pick_observer_ip (all_ips.take count) with
    | .error e => (.error e, [])
    | .ok _observer =>
      if env.deployOk count difficulty then
        match env.startRead count difficulty with
        | .error e => (.error e, [.deploy count difficulty, .counterRead count difficulty])
        | .ok startLen =>
          match env.endRead count difficulty with
          | .error e =>
            (.error e, [.deploy count difficulty, .counterRead count difficulty,
              .counterRead count difficulty])
          | .ok endLen =>
            (.ok { count := count, difficulty := difficulty, duration_sec := duration_sec,
                   ips := all_ips.take count, start_chain_length := startLen,
                   end_chain_length := endLen, blocks_mined := endLen - startLen,
                   deploy_elapsed_sec := env.deployElapsed count difficulty,
                   started_at := env.startStamp count difficulty,
                   ended_at := env.endStamp count difficulty },
             [.deploy count difficulty, .counterRead count difficulty,
              .counterRead count difficulty])
      else (.error .deployFailed, [.deploy count difficulty])

/-- Inner loop of `main` (perf.py lines 386-404): `for count in counts`,
run the experiment, append the result, optionally stop miners between
points; the first raised error aborts the loop. -/
def runCounts (env : Env) (all_ips : List String) (duration_sec : ℕ) (stopBetween : Bool)
    (difficulty : ℕ) : List ℕ → Except PerfError (List RunResult) × List Event
  | [] => (.ok [], [])
  | count :: rest =>
    let re := run_experiment env all_ips count difficulty duration_sec
    match re.1 with
    | .error e => (.error e, re.2)
    | .ok r =>
      let tr1 := if stopBetween then re.2 ++ [Event.stopMiner] else re.2
      let next := runCounts env all_ips duration_sec stopBetween difficulty rest
      (next.1.map fun rs => r :: rs, tr1 ++ next.2)

/-- Outer loop of `main` (perf.py line 385): `for diff in diffs`. -/
def runDiffs (env : Env) (all_ips : List String) (duration_sec : ℕ) (stopBetween : Bool)
    (counts : List ℕ) : List ℕ → Except PerfError (List RunResult) × List Event
  | [] => (.ok [], [])
  | d :: rest =>
    let row := runCounts env all_ips duration_sec stopBetween d counts
    match row.1 with
    | .error e => (.error e, row.2)
    | .ok rs =>
      let next := runDiffs env all_ips duration_sec stopBetween counts rest
      (next.1.map fun more => rs ++ more, row.2 ++ next.2)

/-- The `try/finally` of `main` (perf.py lines 384-407): the grid runs,
then `make_stop_miner` always runs exactly once more, and any error raised
inside the grid propagates afterwards. -/
def main_sweep (env : Env) (all_ips : List String) (duration_sec : ℕ) (stopBetween : Bool)
    (diffs counts : List ℕ) : Except PerfError (List RunResult) × List Event :=
  let g := runDiffs env all_ips duration_sec stopBetween counts diffs
  (g.1, g.2 ++ [Event.stopMiner])

/-- The sweep plan: Cartesian product with outer = difficulty, inner =
count, both in configured list order. -/
def sweepPlan (diffs counts : List ℕ) : List (ℕ × ℕ) :=
  diffs.flatMap fun d => counts.map fun c => (d, c)

/-- Flattened form of the two nested loops, over an explicit list of
(difficulty, count) points; used to state per-point properties of the
sweep.  `runDiffs` over (diffs, counts) equals `runPlan` over
`sweepPlan diffs counts` (proved below). -/
def runPlan (env : Env) (all_ips : List String) (duration_sec : ℕ) (stopBetween : Bool) :
    List (ℕ × ℕ) → Except PerfError (List RunResult) × List Event
  | [] => (.ok [], [])
  | p :: rest =>
    let re := run_experiment env all_ips p.2 p.1 duration_sec
    match re.1 with
    | .error e => (.error e, re.2)
    | .ok r =>
      let tr1 := if stopBetween then re.2 ++ [Event.stopMiner] else re.2
      let next := runPlan env all_ips duration_sec stopBetween rest
      (next.1.map fun rs => r :: rs, tr1 ++ next.2)

/-- Sequential composition of two grid-prefix outcomes: an error in the
first half aborts, otherwise results concatenate and traces concatenate. -/
def combinePlan (a b : Except PerfError (List RunResult) × List Event) :
    Except PerfError (List RunResult) × List Event :=
  match a.1 with
  | .error e => (.error e, a.2)
  | .ok rs => (b.1.map fun more => rs ++ more, a.2 ++ b.2)

/-- Concatenated event traces of a list of grid points, each run in
isolation. -/
def gridTrace (env : Env) (all_ips : List String) (duration_sec : ℕ)
    (pts : List (ℕ × ℕ)) : List Event :=
  (pts.map fun p => (run_experiment env all_ips p.2 p.1 duration_sec).2).flatten

/-- Environment in which every external interaction succeeds. -/
def okEnv : Env where
  deployOk := fun _ _ => true
  startRead := fun _ _ => .ok 10
  endRead := fun _ _ => .ok 17
  deployElapsed := fun _ _ => 1
  startStamp := fun _ _ => "s"
  endStamp := fun _ _ => "e"

/-- Fault-injected environment: the deploy command fails whenever the
requested count is 3, all other interactions succeed. -/
def failEnv : Env :=
  { okEnv with deployOk := fun c _ => c != 3 }

/-- The `RunResult` produced by `okEnv` on the point count=1,
difficulty=3, duration 60, pool ["a"]. -/
def sampleRun : RunResult where
  count := 1
  difficulty := 3
  duration_sec := 60
  ips := ["a"]
  start_chain_length := 10
  end_chain_length := 17
  blocks_mined := 7
  deploy_elapsed_sec := 1
  started_at := "s"
  ended_at := "e"

/-- Oracle that is unavailable on the first two attempts and returns 7
from the third on. -/
def wOracle : ℕ → Option ℤ := fun k => if k < 2 then none else some 7

/-- Oracle that never returns a value. -/
def wNone : ℕ → Option ℤ := fun _ => none

/-- Counter-read calls that return instantly. -/
def wCost : ℕ → ℚ := fun _ => 0

/-- Parser that fails on every input (malformed output). -/
def wParse : String → Option (List (String × JVal)) := fun _ => none

/-- Parser that succeeds but yields an object missing the counter field. -/
def wParse2 : String → Option (List (String × JVal)) := fun _ => some [("foo", JVal.num 1)]

/-- Parser that yields a counter field whose value is not numeric. -/
def wParse3 : String → Option (List (String × JVal)) :=
  fun _ => some [("chain_length", JVal.str "abc")]

/-- `int()` model that succeeds exactly on numeric JSON values. -/
def wToInt : JVal → Option ℤ
  | .num n => some n
  | _ => none

/-- Helper: any successful `run_experiment` returns a record whose count and
difficulty are the requested ones and whose blocks_mined is the exact
difference of the two chain lengths. -/
theorem run_ok_fields (env : Env) (all_ips : List String) (count difficulty duration_sec : ℕ)
    (r : RunResult)
    (h : (run_experiment env all_ips count difficulty duration_sec).1 = .ok r) :
    r.count = count ∧ r.difficulty = difficulty ∧
    r.blocks_mined = r.end_chain_length - r.start_chain_length := by
  unfold run_experiment at h
  split at h
  · exact absurd h (by simp)
  · split at h
    · exact absurd h (by simp)
    · split at h
      · split at h
        · exact absurd h (by simp)
        · split at h
          · exact absurd h (by simp)
          · simp only [Except.ok.injEq] at h
            subst h
            exact ⟨rfl, rfl, rfl⟩
      · exact absurd h (by simp)

/-- C7: for every RunResult constructed by the Experiment Runner, the
blocks-mined field equals the end counter value minus the start counter
value exactly, with no clamping or special handling. -/
theorem blocks_mined_delta (env : Env) (all_ips : List String)
    (count difficulty duration_sec : ℕ) (r : RunResult)
    (h : (run_experiment env all_ips count difficulty duration_sec).1 = .ok r) :
    r.blocks_mined = r.end_chain_length - r.start_chain_length :=
  (run_ok_fields env all_ips count difficulty duration_sec r h).2.2

theorem blocks_mined_delta_witness :
    (run_experiment okEnv ["a"] 1 3 60).1 = .ok sampleRun ∧
    sampleRun.blocks_mined = sampleRun.end_chain_length - sampleRun.start_chain_length :=
  ⟨rfl, blocks_mined_delta okEnv ["a"] 1 3 60 sampleRun rfl⟩

/-- C6 (amended): when a grid point's requested worker count exceeds the
pool size, the Experiment Runner for that point raises a ValueError before
performing any cluster interaction of that point — its event trace is
empty, so no deploy or counter read happens for it.  (The claim as stated,
that the harness fails before any cluster interaction at all begins, is
refuted below: the check runs per grid point inside the sweep, so earlier
grid points interact with the cluster first, and the final cleanup
teardown still follows.) -/
theorem count_check_per_point (env : Env) (all_ips : List String)
    (count difficulty duration_sec : ℕ) (h : count > all_ips.length) :
    run_experiment env all_ips count difficulty duration_sec =
      (.error (.valueError ("Requested COUNT=" ++ toString count ++ " but only " ++
        toString all_ips.length ++ " IPs are in minerip.txt")), []) := by
  unfold run_experiment
  rw [if_pos h]

theorem count_check_per_point_witness :
    5 > (["a"] : List String).length ∧
    run_experiment okEnv ["a"] 5 3 60 =
      (.error (.valueError ("Requested COUNT=" ++ toString (5 : ℕ) ++ " but only " ++
        toString (["a"] : List String).length ++ " IPs are in minerip.txt")), []) :=
  ⟨by decide, count_check_per_point okEnv ["a"] 5 3 60 (by decide)⟩

/-- C6 counterexample: with pool ["a"], difficulties [3] and counts [1, 5],
the requested count 5 exceeds the pool size and the harness fails with the
configuration ValueError — but only after the first grid point already
deployed and read the counter, and the final teardown still runs, so the
failure does not precede every cluster interaction. -/
theorem count_check_not_before_interaction :
    (main_sweep okEnv ["a"] 60 false [3] [1, 5]).1 =
      .error (.valueError "Requested COUNT=5 but only 1 IPs are in minerip.txt") ∧
    (main_sweep okEnv ["a"] 60 false [3] [1, 5]).2 =
      [.deploy 1 3, .counterRead 1 3, .counterRead 1 3, .stopMiner] :=
  ⟨rfl, rfl⟩

/-- C10: with a requested worker count of 0 and a non-empty pool, the
pool-size check passes (0 is not greater than the pool size) but observer
selection on the empty address slice raises ValueError, with an empty
event trace — in particular the deploy command is never invoked. -/
theorem zero_count_valueerror (env : Env) (all_ips : List String)
    (difficulty duration_sec : ℕ) (h : all_ips ≠ []) :
    run_experiment env all_ips 0 difficulty duration_sec =
      (.error (.valueError "No miner IPs provided"), []) := by
  unfold run_experiment
  rw [if_neg (by omega)]
  simp [pick_observer_ip]

theorem zero_count_valueerror_witness :
    (["a"] : List String) ≠ [] ∧
    run_experiment okEnv ["a"] 0 3 60 = (.error (.valueError "No miner IPs provided"), []) :=
  ⟨by simp, zero_count_valueerror okEnv ["a"] 3 60 (by simp)⟩

/-- C5: with the client binary present, every failure of the counter read
— transport error (raised by the command), malformed response (parser
fails), missing counter field, or a field value `int()` cannot convert —
makes `client_chain_length` return `None`, and the call never raises: for
every command outcome it returns normally with some Option value. -/
theorem oracle_unavailable_total (parse : String → Option (List (String × JVal)))
    (toInt : JVal → Option ℤ) :
    client_chain_length true .failed parse toInt = .ok none ∧
    (∀ out, parse out = none → client_chain_length true (.output out) parse toInt = .ok none) ∧
    (∀ out data, parse out = some data → data.lookup "chain_length" = none →
      client_chain_length true (.output out) parse toInt = .ok none) ∧
    (∀ out data v, parse out = some data → data.lookup "chain_length" = some v →
      toInt v = none → client_chain_length true (.output out) parse toInt = .ok none) ∧
    (∀ cmd, ∃ res, client_chain_length true cmd parse toInt = .ok res) := by
  refine ⟨rfl, ?_, ?_, ?_, fun cmd => ⟨_, rfl⟩⟩
  · intro out h
    simp [client_chain_length, h]
  · intro out data h1 h2
    simp [client_chain_length, h1, h2]
  · intro out data v h1 h2 h3
    simp [client_chain_length, h1, h2, h3]

theorem oracle_unavailable_total_witness :
    client_chain_length true CmdOutcome.failed wParse wToInt = .ok none ∧
    (wParse "x" = none ∧
      client_chain_length true (.output "x") wParse wToInt = .ok none) ∧
    (wParse2 "x" = some [("foo", JVal.num 1)] ∧
      ([("foo", JVal.num 1)] : List (String × JVal)).lookup "chain_length" = none ∧
      client_chain_length true (.output "x") wParse2 wToInt = .ok none) ∧
    (wParse3 "x" = some [("chain_length", JVal.str "abc")] ∧
      ([("chain_length", JVal.str "abc")] : List (String × JVal)).lookup "chain_length" =
        some (JVal.str "abc") ∧
      wToInt (JVal.str "abc") = none ∧
      client_chain_length true (.output "x") wParse3 wToInt = .ok none) :=
  ⟨(oracle_unavailable_total wParse wToInt).1,
   ⟨rfl, (oracle_unavailable_total wParse wToInt).2.1 "x" rfl⟩,
   ⟨rfl, rfl, (oracle_unavailable_total wParse2 wToInt).2.2.1 "x" _ rfl rfl⟩,
   ⟨rfl, rfl, rfl, (oracle_unavailable_total wParse3 wToInt).2.2.2.1 "x" _ _ rfl rfl rfl⟩⟩

/-- C8: when the new message is strictly shorter than the previously
printed line of length L, the padded text written over it has length
exactly L, starts with the message, and its last (L - M) characters are
spaces; the recorded last-printed length becomes L. -/
theorem progress_line_padding (L : ℕ) (msg : List Char) (h : msg.length < L) :
    (print_progress_line L msg).1.length = L ∧
    (print_progress_line L msg).1.take msg.length = msg ∧
    (print_progress_line L msg).1.drop msg.length = List.replicate (L - msg.length) ' ' ∧
    (print_progress_line L msg).2 = L := by
  simp only [print_progress_line, if_pos h]
  refine ⟨?_, ?_, ?_, ?_⟩
  · simp only [List.length_append, List.length_replicate]
    omega
  · exact List.take_left msg _
  · exact List.drop_left msg _
  · simp only [List.length_append, List.length_replicate]
    omega

theorem progress_line_padding_witness :
    (['h', 'i'] : List Char).length < 5 ∧
    ((print_progress_line 5 ['h', 'i']).1.length = 5 ∧
      (print_progress_line 5 ['h', 'i']).1.take (['h', 'i'] : List Char).length = ['h', 'i'] ∧
      (print_progress_line 5 ['h', 'i']).1.drop (['h', 'i'] : List Char).length =
        List.replicate (5 - (['h', 'i'] : List Char).length) ' ' ∧
      (print_progress_line 5 ['h', 'i']).2 = 5) :=
  ⟨by decide, progress_line_padding 5 ['h', 'i'] (by decide)⟩

/-- C9: every (difficulty, count) pair of the grid lists that is absent
from the result collection yields a rendered bar of height 0, annotated
with the text "0" placed at the positive offset 0.8 on the y-axis. -/
theorem absent_pair_zero_bar (results : List RunResult) (counts difficulties : List ℕ)
    (c d : ℕ) (hc : c ∈ counts) (hd : d ∈ difficulties)
    (habs : ∀ r ∈ results, ¬(r.difficulty = d ∧ r.count = c)) :
    (∃ b ∈ plot_grouped_bars results counts difficulties, b.count = c ∧ b.difficulty = d) ∧
    ∀ b ∈ plot_grouped_bars results counts difficulties, b.count = c → b.difficulty = d →
      b.height = 0 ∧ b.label = "0" ∧ b.textY = 4/5 ∧ 0 < b.textY := by
  have hfind : results.reverse.find? (fun r => r.difficulty == d && r.count == c) = none := by
    apply List.find?_eq_none.mpr
    intro r hr
    rw [List.mem_reverse] at hr
    have h2 := habs r hr
    simp only [Bool.and_eq_true, beq_iff_eq, not_and]
    intro h3 h4
    exact h2 ⟨h3, h4⟩
  have hnone : lookupBlocks results d c = none := by
    unfold lookupBlocks
    rw [hfind]
    rfl
  constructor
  · simp only [plot_grouped_bars, List.mem_flatMap, List.mem_map]
    exact ⟨_, ⟨c, hc, d, hd, rfl⟩, rfl, rfl⟩
  · intro b hb hbc hbd
    simp only [plot_grouped_bars, List.mem_flatMap, List.mem_map] at hb
    obtain ⟨c2, hc2, d2, hd2, hb⟩ := hb
    subst hb
    dsimp only at hbc hbd ⊢
    subst hbc
    subst hbd
    rw [hnone]
    exact ⟨rfl, rfl, rfl, by norm_num⟩

theorem absent_pair_zero_bar_witness :
    ((9 : ℕ) ∈ [1, 9] ∧ (5 : ℕ) ∈ [3, 5] ∧
      ∀ r ∈ [sampleRun], ¬(r.difficulty = 5 ∧ r.count = 9)) ∧
    (∃ b ∈ plot_grouped_bars [sampleRun] [1, 9] [3, 5], b.count = 9 ∧ b.difficulty = 5) ∧
    ∀ b ∈ plot_grouped_bars [sampleRun] [1, 9] [3, 5], b.count = 9 → b.difficulty = 5 →
      b.height = 0 ∧ b.label = "0" ∧ b.textY = 4/5 ∧ 0 < b.textY :=
  ⟨⟨by decide, by decide, by decide⟩,
    absent_pair_zero_bar [sampleRun] [1, 9] [3, 5] 9 5 (by decide) (by decide) (by decide)⟩

/-- Helper: running a concatenation of grid points is the sequential
composition of running the two halves. -/
theorem runPlan_append (env : Env) (all_ips : List String) (dur : ℕ) (sb : Bool)
    (l1 l2 : List (ℕ × ℕ)) :
    runPlan env all_ips dur sb (l1 ++ l2) =
      combinePlan (runPlan env all_ips dur sb l1) (runPlan env all_ips dur sb l2) := by
  induction l1 with
  | nil =>
    show runPlan env all_ips dur sb l2 =
      combinePlan (.ok [], []) (runPlan env all_ips dur sb l2)
    unfold combinePlan
    cases hp : runPlan env all_ips dur sb l2 with
    | mk res tr => cases res <;> simp [Except.map]
  | cons p rest ih =>
    simp only [List.cons_append, runPlan, List.append_eq]
    cases hre : (run_experiment env all_ips p.2 p.1 dur).1 with
    | error e => simp [combinePlan, hre]
    | ok r =>
      simp only [hre, ih]
      unfold combinePlan
      cases h1 : (runPlan env all_ips dur sb rest).1 with
      | error e => simp [Except.map]
      | ok rs =>
        cases h2 : (runPlan env all_ips dur sb l2).1 <;>
          simp [Except.map, List.append_assoc]

/-- Helper: the inner count loop is the flat plan over one difficulty row. -/
theorem runCounts_eq (env : Env) (all_ips : List String) (dur : ℕ) (sb : Bool)
    (d : ℕ) (counts : List ℕ) :
    runCounts env all_ips dur sb d counts =
      runPlan env all_ips dur sb (counts.map fun c => (d, c)) := by
  induction counts with
  | nil => rfl
  | cons c rest ih => simp only [List.map_cons, runCounts, runPlan, ih]

/-- Helper: the nested difficulty/count loops equal the flat run over the
sweep plan. -/
theorem runDiffs_eq (env : Env) (all_ips : List String) (dur : ℕ) (sb : Bool)
    (counts diffs : List ℕ) :
    runDiffs env all_ips dur sb counts diffs =
      runPlan env all_ips dur sb (sweepPlan diffs counts) := by
  induction diffs with
  | nil => rfl
  | cons dd rest ih =>
    simp only [runDiffs, sweepPlan, List.flatMap_cons] at ih ⊢
    rw [runCounts_eq, ih, runPlan_append]
    unfold combinePlan
    cases h : (runPlan env all_ips dur sb (counts.map fun c => (dd, c))).1 <;> simp [h]

/-- Helper: a single experiment never invokes the stop-cluster command. -/
theorem stop_notin_run (env : Env) (all_ips : List String)
    (count difficulty dur : ℕ) :
    Event.stopMiner ∉ (run_experiment env all_ips count difficulty dur).2 := by
  unfold run_experiment
  split
  · simp
  · split
    · simp
    · split
      · split
        · simp
        · split
          · simp
          · simp
      · simp

/-- Helper: with per-point teardown disabled, the grid loop itself never
invokes the stop-cluster command. -/
theorem stop_notin_runPlan (env : Env) (all_ips : List String) (dur : ℕ)
    (pts : List (ℕ × ℕ)) :
    Event.stopMiner ∉ (runPlan env all_ips dur false pts).2 := by
  induction pts with
  | nil => simp [runPlan]
  | cons p rest ih =>
    simp only [runPlan]
    cases hre : (run_experiment env all_ips p.2 p.1 dur).1 with
    | error e =>
      simp only [hre]
      exact stop_notin_run env all_ips p.2 p.1 dur
    | ok r =>
      simp only [hre, Bool.false_eq_true, if_false, List.mem_append, not_or]
      exact ⟨stop_notin_run env all_ips p.2 p.1 dur, ih⟩

/-- Helper: when every grid point succeeds, the flat run returns the list
of results whose (difficulty, count) projections are exactly the plan, in
order. -/
theorem runPlan_ok (env : Env) (all_ips : List String) (dur : ℕ) (sb : Bool)
    (pts : List (ℕ × ℕ))
    (h : ∀ p ∈ pts, ∃ r, (run_experiment env all_ips p.2 p.1 dur).1 = .ok r) :
    ∃ rs, (runPlan env all_ips dur sb pts).1 = .ok rs ∧
      rs.map (fun r => (r.difficulty, r.count)) = pts := by
  induction pts with
  | nil => exact ⟨[], rfl, rfl⟩
  | cons p rest ih =>
    obtain ⟨r, hr⟩ := h p (List.mem_cons_self p rest)
    obtain ⟨rs, hrs, hmap⟩ := ih fun q hq => h q (List.mem_cons_of_mem p hq)
    refine ⟨r :: rs, ?_, ?_⟩
    · simp only [runPlan, hr]
      rw [hrs]
      rfl
    · have hf := run_ok_fields env all_ips p.2 p.1 dur r hr
      simp only [List.map_cons, hmap, hf.1, hf.2.1]

/-- Helper: if every point of a prefix succeeds and the next point fails
with error e, the flat run over prefix ++ point :: rest aborts with e, its
trace being the prefix traces followed by the failing point's trace; the
remaining points contribute nothing. -/
theorem runPlan_fail (env : Env) (all_ips : List String) (dur : ℕ)
    (pts1 pts2 : List (ℕ × ℕ)) (d c : ℕ) (e : PerfError)
    (h1 : ∀ p ∈ pts1, ∃ r, (run_experiment env all_ips p.2 p.1 dur).1 = .ok r)
    (h2 : (run_experiment env all_ips c d dur).1 = .error e) :
    runPlan env all_ips dur false (pts1 ++ (d, c) :: pts2) =
      (.error e, gridTrace env all_ips dur pts1 ++
        (run_experiment env all_ips c d dur).2) := by
  induction pts1 with
  | nil =>
    simp only [List.nil_append, runPlan]
    rw [h2]
    simp [gridTrace]
  | cons p rest ih =>
    obtain ⟨r, hr⟩ := h1 p (List.mem_cons_self p rest)
    simp only [List.cons_append, runPlan, hr, List.append_eq]
    rw [ih fun q hq => h1 q (List.mem_cons_of_mem p hq)]
    simp [gridTrace, Except.map, List.append_assoc]

/-- C1: with per-point teardown disabled, the sweep invokes the external
stop-cluster command exactly once and as its very last action, on every
exit path; any error raised inside the grid is propagated to the caller
(after that cleanup); and when the grid points before (d, c) succeed and
the point (d, c) raises a fatal error, the whole sweep's trace consists of
exactly the successful prefix's interactions, the failing point's
interactions, and the single final teardown — the remaining points are
not attempted — while the error is reported to the caller. -/
theorem sweep_final_teardown (env : Env) (all_ips : List String) (dur : ℕ)
    (diffs counts : List ℕ) :
    (main_sweep env all_ips dur false diffs counts).2.count Event.stopMiner = 1 ∧
    (main_sweep env all_ips dur false diffs counts).2.getLast? = some Event.stopMiner ∧
    (∀ e, (runDiffs env all_ips dur false counts diffs).1 = .error e →
      (main_sweep env all_ips dur false diffs counts).1 = .error e) ∧
    (∀ pts1 pts2 d c e, sweepPlan diffs counts = pts1 ++ (d, c) :: pts2 →
      (∀ p ∈ pts1, ∃ r, (run_experiment env all_ips p.2 p.1 dur).1 = .ok r) →
      (run_experiment env all_ips c d dur).1 = .error e →
      (main_sweep env all_ips dur false diffs counts).1 = .error e ∧
      (main_sweep env all_ips dur false diffs counts).2 =
        gridTrace env all_ips dur pts1 ++ (run_experiment env all_ips c d dur).2 ++
          [Event.stopMiner]) := by
  refine ⟨?_, ?_, ?_, ?_⟩
  · show ((runDiffs env all_ips dur false counts diffs).2 ++
      [Event.stopMiner]).count Event.stopMiner = 1
    rw [List.count_append]
    have h0 : (runDiffs env all_ips dur false counts diffs).2.count Event.stopMiner = 0 := by
      rw [List.count_eq_zero, runDiffs_eq]
      exact stop_notin_runPlan env all_ips dur (sweepPlan diffs counts)
    rw [h0]
    rfl
  · show ((runDiffs env all_ips dur false counts diffs).2 ++
      [Event.stopMiner]).getLast? = some Event.stopMiner
    simp
  · intro e he
    exact he
  · intro pts1 pts2 d c e hplan hok herr
    have hrd : runDiffs env all_ips dur false counts diffs =
        (.error e, gridTrace env all_ips dur pts1 ++
          (run_experiment env all_ips c d dur).2) := by
      rw [runDiffs_eq, hplan]
      exact runPlan_fail env all_ips dur pts1 pts2 d c e hok herr
    constructor
    · show (runDiffs env all_ips dur false counts diffs).1 = .error e
      rw [hrd]
    · show (runDiffs env all_ips dur false counts diffs).2 ++ [Event.stopMiner] = _
      rw [hrd]

theorem sweep_final_teardown_witness :
    (sweepPlan [3] [1, 3] = [((3 : ℕ), (1 : ℕ))] ++ ((3 : ℕ), (3 : ℕ)) :: []) ∧
    (∀ p ∈ [((3 : ℕ), (1 : ℕ))],
      ∃ r, (run_experiment failEnv ["a", "b", "c"] p.2 p.1 60).1 = .ok r) ∧
    (run_experiment failEnv ["a", "b", "c"] 3 3 60).1 = .error .deployFailed ∧
    (main_sweep failEnv ["a", "b", "c"] 60 false [3] [1, 3]).2.count Event.stopMiner = 1 ∧
    (main_sweep failEnv ["a", "b", "c"] 60 false [3] [1, 3]).1 = .error .deployFailed ∧
    (main_sweep failEnv ["a", "b", "c"] 60 false [3] [1, 3]).2 =
      gridTrace failEnv ["a", "b", "c"] 60 [(3, 1)] ++
        (run_experiment failEnv ["a", "b", "c"] 3 3 60).2 ++ [Event.stopMiner] := by
  have hok : ∀ p ∈ [((3 : ℕ), (1 : ℕ))],
      ∃ r, (run_experiment failEnv ["a", "b", "c"] p.2 p.1 60).1 = .ok r := by
    intro p hp
    simp only [List.mem_singleton] at hp
    subst hp
    exact ⟨_, rfl⟩
  have h := (sweep_final_teardown failEnv ["a", "b", "c"] 60 [3] [1, 3]).2.2.2
    [(3, 1)] [] 3 3 .deployFailed rfl hok rfl
  exact ⟨rfl, hok, rfl, (sweep_final_teardown failEnv ["a", "b", "c"] 60 [3] [1, 3]).1,
    h.1, h.2⟩

/-- C3: when every grid point succeeds, the sweep executes points with
outer = difficulty and inner = count, each in configured list order, and
collects one RunResult per point whose (difficulty, count) projections,
in collection order, are exactly the sweep plan. -/
theorem sweep_order (env : Env) (all_ips : List String) (dur : ℕ) (sb : Bool)
    (diffs counts : List ℕ)
    (h : ∀ p ∈ sweepPlan diffs counts,
      ∃ r, (run_experiment env all_ips p.2 p.1 dur).1 = .ok r) :
    ∃ rs, (main_sweep env all_ips dur sb diffs counts).1 = .ok rs ∧
      rs.map (fun r => (r.difficulty, r.count)) = sweepPlan diffs counts := by
  obtain ⟨rs, h1, h2⟩ := runPlan_ok env all_ips dur sb (sweepPlan diffs counts) h
  refine ⟨rs, ?_, h2⟩
  show (runDiffs env all_ips dur sb counts diffs).1 = .ok rs
  rw [runDiffs_eq]
  exact h1

theorem sweep_order_witness :
    (∀ p ∈ sweepPlan [3, 4] [1, 3],
      ∃ r, (run_experiment okEnv ["a", "b", "c"] p.2 p.1 60).1 = .ok r) ∧
    ∃ rs, (main_sweep okEnv ["a", "b", "c"] 60 false [3, 4] [1, 3]).1 = .ok rs ∧
      rs.map (fun r => (r.difficulty, r.count)) =
        [(3, 1), (3, 3), (4, 1), (4, 3)] := by
  have hok : ∀ p ∈ sweepPlan [3, 4] [1, 3],
      ∃ r, (run_experiment okEnv ["a", "b", "c"] p.2 p.1 60).1 = .ok r := by
    intro p hp
    have hv : sweepPlan [3, 4] [1, 3] = [(3, 1), (3, 3), (4, 1), (4, 3)] := rfl
    rw [hv] at hp
    fin_cases hp <;> exact ⟨_, rfl⟩
  exact ⟨hok, sweep_order okEnv ["a", "b", "c"] 60 false [3, 4] [1, 3] hok⟩

/-- Helper: every logged counter-read call was issued strictly before the
deadline, with the per-call timeout computed from the remaining time at
that instant. -/
theorem waitLoop_log_spec (oracle : ℕ → Option ℤ) (cost : ℕ → ℚ) (deadline pollInt : ℚ) :
    ∀ (fuel : ℕ) (t : ℚ) (k : ℕ),
      ∀ e ∈ (waitLoop oracle cost deadline pollInt fuel t k).2,
        e.callTime < deadline ∧
        e.callTimeout = per_call_timeout (deadline - e.callTime) := by
  intro fuel
  induction fuel with
  | zero =>
    intro t k e he
    simp [waitLoop] at he
  | succ n ih =>
    intro t k e he
    simp only [waitLoop] at he
    by_cases ht : t < deadline
    · rw [if_pos ht] at he
      cases ho : oracle k with
      | some v =>
        rw [ho] at he
        simp only [List.mem_singleton] at he
        subst he
        exact ⟨ht, rfl⟩
      | none =>
        rw [ho] at he
        simp only [List.mem_cons] at he
        rcases he with he | he
        · subst he
          exact ⟨ht, rfl⟩
        · exact ih _ _ e he
    · rw [if_neg ht] at he
      simp at he

/-- Helper: if the oracle never answers and m poll sleeps already cover the
time to the deadline, the loop with fuel m+1 ends in a timeout at a time
at or past the deadline. -/
theorem waitLoop_timedOut (oracle : ℕ → Option ℤ) (cost : ℕ → ℚ) (deadline pollInt : ℚ)
    (hcost : ∀ k, 0 ≤ cost k) (hnone : ∀ k, oracle k = none) :
    ∀ (m : ℕ) (t : ℚ) (k : ℕ), deadline ≤ t + (m : ℚ) * pollInt →
      ∃ tf, (waitLoop oracle cost deadline pollInt (m + 1) t k).1 = .timedOut tf ∧
        deadline ≤ tf := by
  intro m
  induction m with
  | zero =>
    intro t k h
    simp only [Nat.cast_zero, zero_mul, add_zero] at h
    refine ⟨t, ?_, h⟩
    simp only [waitLoop]
    rw [if_neg (not_lt.mpr h)]
  | succ n ih =>
    intro t k h
    by_cases ht : t < deadline
    · have h2 : deadline ≤ (t + cost k + pollInt) + (n : ℚ) * pollInt := by
        have := hcost k
        push_cast at h ⊢
        linarith
      obtain ⟨tf, htf, hle⟩ := ih (t + cost k + pollInt) (k + 1) h2
      refine ⟨tf, ?_, hle⟩
      simp only [waitLoop]
      rw [if_pos ht, hnone k]
      exact htf
    · refine ⟨t, ?_, not_lt.mp ht⟩
      simp only [waitLoop]
      rw [if_neg ht]

/-- Helper: if the oracle is unavailable on the N attempts starting at k
and answers v on attempt k+N, and the deadline leaves room for those
attempts, the loop returns v, no earlier than N poll sleeps after start. -/
theorem waitLoop_value (oracle : ℕ → Option ℤ) (cost : ℕ → ℚ) (deadline pollInt : ℚ)
    (hcost : ∀ j, 0 ≤ cost j) (hpoll : 0 ≤ pollInt) :
    ∀ (N fuel : ℕ) (t : ℚ) (k : ℕ) (v : ℤ),
      (∀ j < N, oracle (k + j) = none) → oracle (k + N) = some v →
      t + (Finset.range N).sum (fun j => cost (k + j)) + (N : ℚ) * pollInt < deadline →
      N < fuel →
      ∃ tf, (waitLoop oracle cost deadline pollInt fuel t k).1 = .value v tf ∧
        t + (N : ℚ) * pollInt ≤ tf := by
  intro N
  induction N with
  | zero =>
    intro fuel t k v _ hsome htime hfuel
    obtain ⟨f, rfl⟩ : ∃ f, fuel = f + 1 := ⟨fuel - 1, by omega⟩
    have ht : t < deadline := by simpa using htime
    refine ⟨t + cost k, ?_, by simpa using hcost k⟩
    simp only [waitLoop]
    rw [if_pos ht]
    have hs : oracle k = some v := by simpa using hsome
    rw [hs]
  | succ n ih =>
    intro fuel t k v hnone hsome htime hfuel
    obtain ⟨f, rfl⟩ : ∃ f, fuel = f + 1 := ⟨fuel - 1, by omega⟩
    have hc0 : oracle k = none := by simpa using hnone 0 (by omega)
    have hsum : (Finset.range (n + 1)).sum (fun j => cost (k + j)) =
        (Finset.range n).sum (fun j => cost (k + 1 + j)) + cost k := by
      rw [Finset.sum_range_succ']
      congr 1
      apply Finset.sum_congr rfl
      intro j _
      congr 1
      omega
    have hs : 0 ≤ (Finset.range n).sum (fun j => cost (k + 1 + j)) :=
      Finset.sum_nonneg fun j _ => hcost (k + 1 + j)
    have hnn : 0 ≤ ((n : ℚ) + 1) * pollInt := mul_nonneg (by positivity) hpoll
    have ht : t < deadline := by
      rw [hsum] at htime
      push_cast at htime
      have := hcost k
      nlinarith
    have htime2 : (t + cost k + pollInt) +
        (Finset.range n).sum (fun j => cost (k + 1 + j)) + (n : ℚ) * pollInt < deadline := by
      rw [hsum] at htime
      push_cast at htime ⊢
      linarith
    have hnone2 : ∀ j < n, oracle (k + 1 + j) = none := by
      intro j hj
      have hx := hnone (j + 1) (by omega)
      rwa [show k + (j + 1) = k + 1 + j from by omega] at hx
    have hsome2 : oracle (k + 1 + n) = some v := by
      rwa [show k + (n + 1) = k + 1 + n from by omega] at hsome
    obtain ⟨tf, htf, hle⟩ := ih f (t + cost k + pollInt) (k + 1) v hnone2 hsome2 htime2
      (by omega)
    refine ⟨tf, ?_, ?_⟩
    · simp only [waitLoop]
      rw [if_pos ht, hc0]
      exact htf
    · have := hcost k
      push_cast at hle ⊢
      linarith

/-- C2: for the Deadline Poller — (a) if the Counter Oracle is unavailable
on the first N attempts and then yields a value within the deadline, the
poller returns that value and the elapsed time from start is at least
N × poll_interval; (b) if the Oracle never yields a value, the poller
raises Timeout at or after the deadline; (c) every counter-read attempt is
issued strictly before the deadline — the loop never continues past it. -/
theorem poller_deadline_behavior (oracle : ℕ → Option ℤ) (cost : ℕ → ℚ)
    (t0 timeout_sec pollInt : ℚ) (fuel : ℕ)
    (hcost : ∀ k, 0 ≤ cost k) (hpoll : 0 ≤ pollInt) :
    (∀ N v, (∀ k < N, oracle k = none) → oracle N = some v →
      t0 + (Finset.range N).sum (fun k => cost k) + (N : ℚ) * pollInt < t0 + timeout_sec →
      N < fuel →
      ∃ tf, (wait_for_chain_length oracle cost t0 timeout_sec pollInt fuel).1 =
          .value v tf ∧ (N : ℚ) * pollInt ≤ tf - t0) ∧
    ((∀ k, oracle k = none) → ∀ m, fuel = m + 1 → timeout_sec ≤ (m : ℚ) * pollInt →
      ∃ tf, (wait_for_chain_length oracle cost t0 timeout_sec pollInt fuel).1 =
          .timedOut tf ∧ t0 + timeout_sec ≤ tf) ∧
    (∀ e ∈ (wait_for_chain_length oracle cost t0 timeout_sec pollInt fuel).2,
      e.callTime < t0 + timeout_sec) := by
  refine ⟨?_, ?_, ?_⟩
  · intro N v hN hsome htime hfuel
    obtain ⟨tf, h1, h2⟩ := waitLoop_value oracle cost (t0 + timeout_sec) pollInt hcost hpoll
      N fuel t0 0 v (fun j hj => by simpa using hN j hj) (by simpa using hsome)
      (by simpa using htime) hfuel
    exact ⟨tf, h1, by linarith⟩
  · intro hnone m hm hts
    subst hm
    exact waitLoop_timedOut oracle cost (t0 + timeout_sec) pollInt hcost hnone m t0 0
      (by linarith)
  · intro e he
    exact (waitLoop_log_spec oracle cost (t0 + timeout_sec) pollInt fuel t0 0 e he).1

theorem poller_deadline_behavior_witness :
    (∀ k, (0 : ℚ) ≤ wCost k) ∧ ((0 : ℚ) ≤ 1) ∧
    (∃ tf, (wait_for_chain_length wOracle wCost 0 10 1 5).1 = .value 7 tf ∧
      ((2 : ℕ) : ℚ) * 1 ≤ tf - 0) ∧
    (∃ tf, (wait_for_chain_length wNone wCost 0 10 1 11).1 = .timedOut tf ∧
      (0 : ℚ) + 10 ≤ tf) := by
  have hcost : ∀ k, (0 : ℚ) ≤ wCost k := fun _ => le_refl 0
  refine ⟨hcost, by norm_num, ?_, ?_⟩
  · refine (poller_deadline_behavior wOracle wCost 0 10 1 5 hcost (by norm_num)).1 2 7
      ?_ rfl ?_ (by norm_num)
    · intro k hk
      interval_cases k <;> rfl
    · simp [wCost]
      norm_num
  · exact (poller_deadline_behavior wNone wCost 0 10 1 11 hcost (by norm_num)).2.1
      (fun _ => rfl) 10 rfl (by norm_num)

/-- Helper: arithmetic facts about the per-call timeout computed from a
positive remaining time, and about the integer timeout the subprocess
runner derives from it. -/
theorem per_call_bounds (r : ℚ) (hr : 0 < r) :
    1/2 ≤ per_call_timeout r ∧ per_call_timeout r ≤ 2 ∧
    (1/2 ≤ r → per_call_timeout r ≤ r) ∧
    1 ≤ run_cmd_timeout (per_call_timeout r) ∧
    run_cmd_timeout (per_call_timeout r) ≤ 2 ∧
    (1 ≤ r → (run_cmd_timeout (per_call_timeout r) : ℚ) ≤ r) := by
  have h1 : (1/2 : ℚ) ≤ per_call_timeout r := le_max_left _ _
  have h2 : per_call_timeout r ≤ 2 := max_le (by norm_num) (min_le_left _ _)
  have hpos : (0 : ℚ) < per_call_timeout r := lt_of_lt_of_le (by norm_num) h1
  have hpy : pyInt (per_call_timeout r) = ⌊per_call_timeout r⌋ := if_pos (le_of_lt hpos)
  have hclip : 1/2 ≤ r → per_call_timeout r ≤ r := fun h => max_le h (min_le_right _ _)
  refine ⟨h1, h2, hclip, le_max_left _ _, ?_, ?_⟩
  · unfold run_cmd_timeout
    rw [hpy]
    apply max_le (by norm_num)
    have h3 : ⌊per_call_timeout r⌋ ≤ ⌊(2 : ℚ)⌋ := Int.floor_le_floor h2
    rwa [show ⌊(2 : ℚ)⌋ = 2 from by norm_num] at h3
  · intro hr1
    unfold run_cmd_timeout
    rw [hpy]
    push_cast
    apply max_le hr1
    exact le_trans (Int.floor_le _) (hclip (by linarith))

/-- C4 (amended): on every polling attempt, the per-call timeout computed
for the counter read lies between 0.5 s and 2 s, and is clipped to the
time remaining until the deadline whenever at least 0.5 s remains (with
less than 0.5 s remaining the 0.5 s floor applies and the timeout may
exceed the remaining time); the integer timeout the process runner derives
from it lies between 1 and 2 and is below the remaining time whenever at
least 1 s remains. -/
theorem per_call_timeout_bounded (oracle : ℕ → Option ℤ) (cost : ℕ → ℚ)
    (deadline pollInt : ℚ) (fuel : ℕ) (t : ℚ) (k : ℕ) :
    ∀ e ∈ (waitLoop oracle cost deadline pollInt fuel t k).2,
      (1/2 ≤ e.callTimeout ∧ e.callTimeout ≤ 2) ∧
      (1/2 ≤ deadline - e.callTime → e.callTimeout ≤ deadline - e.callTime) ∧
      (1 ≤ run_cmd_timeout e.callTimeout ∧ run_cmd_timeout e.callTimeout ≤ 2) ∧
      (1 ≤ deadline - e.callTime →
        (run_cmd_timeout e.callTimeout : ℚ) ≤ deadline - e.callTime) := by
  intro e he
  obtain ⟨hlt, heq⟩ := waitLoop_log_spec oracle cost deadline pollInt fuel t k e he
  have hr : 0 < deadline - e.callTime := by linarith
  have hb := per_call_bounds (deadline - e.callTime) hr
  rw [heq]
  exact ⟨⟨hb.1, hb.2.1⟩, hb.2.2.1, ⟨hb.2.2.2.1, hb.2.2.2.2.1⟩, hb.2.2.2.2.2⟩

/-- C4 counterexample: with 0.25 s remaining until the deadline, the
polling attempt is issued with a computed per-call timeout of 0.5 s and an
effective subprocess timeout of 1 s, both exceeding the remaining time —
the timeout is not clipped to the time remaining. -/
theorem per_call_timeout_not_clipped :
    (waitLoop wNone wCost (1/4) 1 2 0 0).2 = [⟨0, 0, 1/2⟩] ∧
    (1/4 : ℚ) - 0 < 1/2 ∧
    ((1/4 : ℚ) - 0) < (run_cmd_timeout (1/2) : ℚ) := by
  refine ⟨?_, by norm_num, ?_⟩
  · simp only [waitLoop, wNone, wCost]
    rw [if_pos (by norm_num : (0 : ℚ) < 1/4),
      if_neg (by norm_num : ¬((0 : ℚ) + 0 + 1 < 1/4))]
    norm_num [per_call_timeout, min_def, max_def]
  · have hfl : ⌊(1/2 : ℚ)⌋ = 0 := by
      rw [Int.floor_eq_zero_iff]
      constructor <;> norm_num
    have : run_cmd_timeout (1/2) = 1 := by
      unfold run_cmd_timeout pyInt
      rw [if_pos (by norm_num : (0 : ℚ) ≤ 1/2), hfl]
      rfl
    rw [this]
    norm_num

theorem per_call_timeout_bounded_witness :
    (⟨0, 0, 2⟩ : CallLog) ∈ (waitLoop wNone wCost 10 1 2 0 0).2 ∧
    (((1 : ℚ)/2 ≤ (2 : ℚ) ∧ (2 : ℚ) ≤ 2) ∧
      (1/2 ≤ (10 : ℚ) - 0 → (2 : ℚ) ≤ (10 : ℚ) - 0) ∧
      (1 ≤ run_cmd_timeout 2 ∧ run_cmd_timeout 2 ≤ 2) ∧
      (1 ≤ (10 : ℚ) - 0 → (run_cmd_timeout 2 : ℚ) ≤ (10 : ℚ) - 0)) := by
  have hlogs : (waitLoop wNone wCost 10 1 2 0 0).2 = [⟨0, 0, 2⟩, ⟨1, 1, 2⟩] := by
    simp only [waitLoop, wNone, wCost]
    rw [if_pos (by norm_num : (0 : ℚ) < 10),
      if_pos (by norm_num : (0 : ℚ) + 0 + 1 < 10)]
    norm_num [per_call_timeout, min_def, max_def]
  have hmem : (⟨0, 0, 2⟩ : CallLog) ∈ (waitLoop wNone wCost 10 1 2 0 0).2 := by
    rw [hlogs]
    exact List.mem_cons_self _ _
  exact ⟨hmem, per_call_timeout_bounded wNone wCost 10 1 2 0 0 ⟨0, 0, 2⟩ hmem⟩

end Perf
